import Mathlib

/-!
Verification development for the `prepare-for-web` tool (`src/dist/index.js`).

The development shallowly embeds the core pipeline of the tool:
  * `generateFavicons` (favicon orchestrator with a 30-time-unit timeout and
    one retry) as an explicit event-driven state machine `favStep` / `favRun`;
  * `replaceRootPaths` (textual path rewriter) over a functional filesystem;
  * the maskable-icon manifest merge (`processMaskableIcon`, `mergeLoop`);
  * `generateApp` (staleness gate, robots generation, favicon step, manifest
    step, rewrite step, document step, cache commit) as a function from an
    initial filesystem and external-collaborator outcomes to a run result.

External collaborators (the `favicons` npm package, `JSON.parse` /
`JSON.stringify` for the manifest, the handlebars template engine) are
supplied as oracle parameters in the `Ext` structure; everything that is code
of the repository is translated directly from `src/dist/index.js`.
-/

namespace PrepareForWeb

/-! ### JS string primitives

The source uses JS `String.prototype.startsWith` / `endsWith` / `slice` and
`String.prototype.replace` with a global regexp of an escaped literal pattern
(which replaces every non-overlapping occurrence, scanning left to right).
All file contents in the claims are ASCII, so JS UTF-16 code-unit indexing
coincides with `Char` indexing. -/

/-- JS `s.startsWith(p)`. -/
def jsStartsWith (s p : String) : Bool := p.data.isPrefixOf s.data

/-- JS `s.endsWith(p)`. -/
def jsEndsWith (s p : String) : Bool := p.data.isSuffixOf s.data

/-- JS `s.slice(0, s.length - n)` (drop the last `n` characters). -/
def jsDropRight (s : String) (n : Nat) : String := ⟨s.data.take (s.data.length - n)⟩

/-- JS `s.slice(n)` (drop the first `n` characters). -/
def jsDropLeft (s : String) (n : Nat) : String := ⟨s.data.drop n⟩

/-- Fuelled worker for `repAll`; the fuel only bounds the recursion depth
(one unit per input position) and never runs out when it starts at the
input length. -/
def repAllF (pat rep : List Char) : Nat → List Char → List Char
  | _, [] => []
  | 0, l => l
  | fuel + 1, c :: rest =>
    if pat.isPrefixOf (c :: rest) then
      rep ++ repAllF pat rep fuel (rest.drop (pat.length - 1))
    else
      c :: repAllF pat rep fuel rest

/-- Replace every non-overlapping occurrence of `pat` in the input,
scanning left to right, by `rep`: the semantics of JS
`input.replace(new RegExp(escapedPat, g), rep)` for a nonempty literal
pattern with a literal replacement. -/
def repAll (pat rep l : List Char) : List Char := repAllF pat rep l.length l

/-- `String`-level wrapper for `repAll`. -/
def replaceAllStr (s pat rep : String) : String := ⟨repAll pat.data rep.data s.data⟩

/-- Does `pat` occur as a substring? (Used only to state theorems.) -/
def hasSubstr (pat : List Char) : List Char → Bool
  | [] => pat.isPrefixOf ([] : List Char)
  | c :: rest => pat.isPrefixOf (c :: rest) || hasSubstr pat rest

/-- `String`-level wrapper for `hasSubstr`. -/
def containsStr (s pat : String) : Bool := hasSubstr pat.data s.data

/-- Node `path.join(a, b)`, restricted to the already-normalized relative
segments the tool passes it (no `.`, `..`, absolute segments or trailing
separators), where it is plain concatenation with a `/` separator. -/
def pathJoin (a b : String) : String := a ++ "/" ++ b

/-- JS truthiness of a possibly-absent string (`undefined` and the empty string are
falsy, every other string is truthy). -/
def truthy : Option String → Bool
  | none => false
  | some s => !(s = "")

theorem pathJoin_inj_right {folder a b : String} (h : pathJoin folder a = pathJoin folder b) :
    a = b := by
  have hd : (pathJoin folder a).data = (pathJoin folder b).data := by rw [h]
  simp only [pathJoin] at hd
  have : (folder ++ "/").data ++ a.data = (folder ++ "/").data ++ b.data := by
    simpa [String.data_append] using hd
  have := List.append_cancel_left this
  cases a; cases b
  exact congrArg String.mk this

/-! ### Filesystem model

A filesystem maps paths to entries; an entry is a directory or a file, each
carrying a modification time.  `statSync(..).mtime.getTime()` reports
milliseconds; `utimesSync(p, t, t)` takes seconds, so a later stat reports
`t * 1000` milliseconds. -/

/-- A filesystem entry: a directory or a file, with its mtime in ms. -/
inductive Entry
  | dir (mtimeMs : Nat)
  | file (mtimeMs : Nat) (content : String)
deriving DecidableEq

/-- A filesystem: a map from paths to entries. -/
abbrev FS := String → Option Entry

/-- Write (create or overwrite) an entry. -/
def FS.write (fs : FS) (k : String) (e : Entry) : FS :=
  fun q => if q = k then some e else fs q

/-- `fs.ensureDirSync p`: create the directory if the path is vacant
(creation of missing parent directories is not observed by any code path and
is not modelled). -/
def FS.ensureDir (fs : FS) (p : String) (clockMs : Nat) : FS :=
  match fs p with
  | none => fs.write p (Entry.dir clockMs)
  | some _ => fs

/-- `statSync(p).mtime.getTime()` (ms), `none` when the stat throws. -/
def statMtime (fs : FS) (p : String) : Option Nat :=
  match fs p with
  | some (Entry.dir t) => some t
  | some (Entry.file t _) => some t
  | none => none

/-- File content at a path, when the entry is a regular file. -/
def fileContent (fs : FS) (p : String) : Option String :=
  match fs p with
  | some (Entry.file _ c) => some c
  | _ => none

/-- `try { utimesSync(p, secs, secs) } catch {}`: set the mtime of an
existing entry to `secs` seconds (observed as `secs * 1000` ms by a later
stat); a missing path is left alone (the throw is swallowed). -/
def FS.trySetMtimeSecs (fs : FS) (p : String) (secs : Nat) : FS :=
  match fs p with
  | some (Entry.dir _) => fs.write p (Entry.dir (secs * 1000))
  | some (Entry.file _ c) => fs.write p (Entry.file (secs * 1000) c)
  | none => fs

theorem FS.write_self (fs : FS) (k : String) (e : Entry) : fs.write k e k = some e := by
  simp [FS.write]

theorem FS.write_other (fs : FS) {k q : String} (e : Entry) (h : q ≠ k) :
    fs.write k e q = fs q := by
  simp [FS.write, h]

theorem FS.ensureDir_other (fs : FS) {p q : String} (clockMs : Nat) (h : q ≠ p) :
    fs.ensureDir p clockMs q = fs q := by
  unfold FS.ensureDir
  cases fs p with
  | none => exact fs.write_other _ h
  | some e => rfl

theorem FS.trySetMtimeSecs_other (fs : FS) {p q : String} (secs : Nat) (h : q ≠ p) :
    fs.trySetMtimeSecs p secs q = fs q := by
  unfold FS.trySetMtimeSecs
  cases hf : fs p with
  | none => rfl
  | some e => cases e <;> exact fs.write_other _ h

theorem FS.trySetMtimeSecs_isSome (fs : FS) (p q : String) (secs : Nat) :
    (fs.trySetMtimeSecs p secs q).isSome = (fs q).isSome := by
  unfold FS.trySetMtimeSecs
  by_cases hq : q = p
  · subst hq
    cases hf : fs q with
    | none => simp [hf]
    | some e => cases e <;> simp [FS.write, hf]
  · cases hf : fs p with
    | none => rfl
    | some e => cases e <;> simp [FS.write, hq]

theorem statMtime_eq_of_eq {f g : FS} {q : String} (h : f q = g q) :
    statMtime f q = statMtime g q := by
  unfold statMtime
  rw [h]

theorem statMtime_trySetMtimeSecs_self (fs : FS) (p : String) (secs : Nat)
    (h : (fs p).isSome) : statMtime (fs.trySetMtimeSecs p secs) p = some (secs * 1000) := by
  unfold FS.trySetMtimeSecs statMtime
  cases hf : fs p with
  | none => rw [hf] at h; simp at h
  | some e => cases e <;> simp [FS.write, hf]

/-! ### Favicon orchestrator (`generateFavicons`)

`generateFavicons(exportFolder, icon, config)` arms a 30-time-unit timer,
invokes the external favicon capability once, and wires the callbacks:

  * the timer, when it fires, logs a notice, nulls the `timer` variable and
    starts a second (retry) invocation whose callbacks settle the promise
    unguarded;
  * the callbacks of the first invocation settle the promise only under
    `if (timer)` (the `timer` variable is truthy);
  * the success callback of either invocation first writes every produced
    image and auxiliary file to the export folder, then resolves with the
    HTML fragments;
  * the `.then` continuation, which runs only when the promise fulfills
    (never on rejection), prints a notice and calls `clearTimeout(timer)`
    when `timer` is truthy (cancelling the scheduled firing without nulling
    the variable).

The JS event loop runs the timer firing and each external callback as atomic
turns (the `.then` microtask runs before any further macrotask, so it is
folded into the resolving turn).  A run is a fold of such turns (`FavEvent`s)
from the state just after the promise executor ran. -/

deriving instance DecidableEq for Except

/-- What the external favicon capability passes to the callback of one
invocation: an error, or a response with images, auxiliary files and HTML
fragments (each asset is a name/contents pair). -/
structure FavResponse where
  images : List (String × String)
  files : List (String × String)
  html : List String
deriving DecidableEq

/-- Outcome of one external invocation. -/
inductive FavOutcome
  | err (e : String)
  | ok (r : FavResponse)
deriving DecidableEq

/-- State of one `generateFavicons` call. -/
structure FavState where
  /-- The `timer` variable is truthy (set by `setTimeout`, nulled when the
  timer fires; `clearTimeout` does not null it). -/
  timerVar : Bool
  /-- The scheduled firing is still pending (not fired, not cleared). -/
  timerLive : Bool
  /-- Number of external invocations started (1 after the executor ran). -/
  attempts : Nat
  /-- The callback of the first invocation has run. -/
  fired1 : Bool
  /-- The callback of the retry invocation has run. -/
  fired2 : Bool
  /-- Settlement of the returned promise. -/
  settled : Option (Except String (List String))
  /-- Files written to the export folder, in order (full path, contents). -/
  writes : List (String × String)
  /-- Console/stdout output, in order. -/
  log : List String
deriving DecidableEq

/-- State after the promise executor ran: timer armed, first invocation
started, nothing settled. -/
def favInit : FavState :=
  { timerVar := true
    timerLive := true
    attempts := 1
    fired1 := false
    fired2 := false
    settled := none
    writes := []
    log := [] }

/-- `resolve r` followed by the `.then` continuation: a no-op when the
promise is already settled; otherwise fulfills it, prints, and clears the
timer when the `timer` variable is truthy. -/
def favResolve (s : FavState) (html : List String) : FavState :=
  if s.settled = none then
    { s with
      settled := some (Except.ok html)
      log := s.log ++ [" done"]
      timerLive := if s.timerVar then false else s.timerLive }
  else s

/-- `reject e`: a no-op when already settled; otherwise rejects the promise.
No continuation is registered for rejection, so the timer is untouched. -/
def favReject (s : FavState) (e : String) : FavState :=
  if s.settled = none then { s with settled := some (Except.error e) } else s

/-- The full paths written for a successful response: every image, then
every auxiliary file, at `exportFolder ++ "/" ++ name`. -/
def favWritesOf (exportFolder : String) (r : FavResponse) : List (String × String) :=
  (r.images ++ r.files).map (fun a => (exportFolder ++ "/" ++ a.1, a.2))

/-- An event-loop turn during one `generateFavicons` call. -/
inductive FavEvent
  | timerFires
  | callback1 (o : FavOutcome)
  | callback2 (o : FavOutcome)
deriving DecidableEq

/-- One event-loop turn.  Invalid turns (a cleared timer firing, a callback
of an invocation that has not started or has already called back) leave the
state unchanged. -/
def favStep (exportFolder : String) (s : FavState) : FavEvent → FavState
  | FavEvent.timerFires =>
    if s.timerLive then
      { s with
        log := s.log ++ ["timed out, retrying..."]
        timerVar := false
        timerLive := false
        attempts := s.attempts + 1 }
    else s
  | FavEvent.callback1 o =>
    if s.fired1 then s
    else
      let s1 := { s with fired1 := true }
      match o with
      | FavOutcome.err e => if s1.timerVar then favReject s1 e else s1
      | FavOutcome.ok r =>
        let s2 := { s1 with writes := s1.writes ++ favWritesOf exportFolder r }
        if s2.timerVar then favResolve s2 r.html else s2
  | FavEvent.callback2 o =>
    if s.attempts < 2 || s.fired2 then s
    else
      let s1 := { s with fired2 := true }
      match o with
      | FavOutcome.err e => favReject s1 e
      | FavOutcome.ok r =>
        favResolve { s1 with writes := s1.writes ++ favWritesOf exportFolder r } r.html

/-- A whole `generateFavicons` call: fold the event-loop turns. -/
def favRun (exportFolder : String) (evs : List FavEvent) : FavState :=
  evs.foldl (favStep exportFolder) favInit

/-- The settlement produced by an unguarded callback with outcome `o`. -/
def outcomeSettle : FavOutcome → Option (Except String (List String))
  | FavOutcome.err e => some (Except.error e)
  | FavOutcome.ok r => some (Except.ok r.html)

theorem favStep_settled_mono (f : String) (s : FavState) (ev : FavEvent) (x : Except String (List String))
    (h : s.settled = some x) : (favStep f s ev).settled = some x := by
  cases ev with
  | timerFires => simp only [favStep]; split <;> simp [h]
  | callback1 o =>
    simp only [favStep]
    split
    · exact h
    · cases o with
      | err e => dsimp only; split <;> simp [favReject, h]
      | ok r => dsimp only; split <;> simp [favResolve, h]
  | callback2 o =>
    simp only [favStep]
    split
    · exact h
    · cases o with
      | err e => simp [favReject, h]
      | ok r => simp [favResolve, h]

theorem favFold_settled_mono (f : String) (evs : List FavEvent) (s : FavState)
    (x : Except String (List String)) (h : s.settled = some x) :
    (evs.foldl (favStep f) s).settled = some x := by
  induction evs generalizing s with
  | nil => exact h
  | cons ev rest ih => exact ih _ (favStep_settled_mono f s ev x h)

/-- The step invariant behind the retry bound: the timer variable and the
pending firing are never re-established, and an attempt count of 2 is
reached only by the (unrepeatable) firing. -/
def favInv (s : FavState) : Prop :=
  s.attempts ≤ 2 ∧ (s.timerLive → s.attempts = 1) ∧ (s.timerVar → s.attempts = 1)

theorem favStep_inv (f : String) (s : FavState) (ev : FavEvent) (h : favInv s) :
    favInv (favStep f s ev) := by
  obtain ⟨h1, h2, h3⟩ := h
  unfold favInv at *
  cases ev <;>
    simp only [favStep, favReject, favResolve] <;>
    (repeat' split) <;> simp_all

theorem favFold_inv (f : String) (evs : List FavEvent) (s : FavState) (h : favInv s) :
    favInv (evs.foldl (favStep f) s) := by
  induction evs generalizing s with
  | nil => exact h
  | cons ev rest ih => exact ih _ (favStep_inv f s ev h)

theorem favStep_dead (f : String) (s : FavState) (ev : FavEvent) (h : s.timerLive = false) :
    (favStep f s ev).timerLive = false ∧ (favStep f s ev).attempts = s.attempts := by
  cases ev <;> simp only [favStep, favReject, favResolve] <;> (repeat' split) <;> simp_all

theorem favFold_dead (f : String) (evs : List FavEvent) (s : FavState) (h : s.timerLive = false) :
    (evs.foldl (favStep f) s).timerLive = false ∧ (evs.foldl (favStep f) s).attempts = s.attempts := by
  induction evs generalizing s with
  | nil => exact ⟨h, rfl⟩
  | cons ev rest ih =>
    obtain ⟨h1, h2⟩ := favStep_dead f s ev h
    obtain ⟨g1, g2⟩ := ih (favStep f s ev) h1
    exact ⟨by rw [List.foldl_cons]; exact g1, by rw [List.foldl_cons, g2, h2]⟩

/-- The writes performed by an unguarded callback with outcome `o`. -/
def outcomeWrites (f : String) : FavOutcome → List (String × String)
  | FavOutcome.err _ => []
  | FavOutcome.ok r => favWritesOf f r

/-- C3: `generateFavicons` issues at most one timeout-triggered retry per
call: in every run the number of invocations of the external capability is
at most 2; once a retry is running no timer is pending (the retry is not
wrapped in a second timeout); when the timer fires before the first attempt
resolves, exactly one retry is started and no timer remains pending; and
whether the late first attempt calls back before or after the retry
resolves, the promise settles with the result of the retried attempt. -/
theorem generateFavicons_single_retry (f : String) (o1 o2 : FavOutcome)
    (evs rest : List FavEvent) :
    (favRun f evs).attempts ≤ 2 ∧
    ((favRun f evs).attempts = 2 → (favRun f evs).timerLive = false) ∧
    ((favRun f (FavEvent.timerFires :: rest)).attempts = 2 ∧
      (favRun f (FavEvent.timerFires :: rest)).timerLive = false) ∧
    (favRun f ([FavEvent.timerFires, FavEvent.callback2 o2] ++ rest)).settled = outcomeSettle o2 ∧
    (favRun f ([FavEvent.timerFires, FavEvent.callback1 o1, FavEvent.callback2 o2] ++ rest)).settled
      = outcomeSettle o2 := by
  have hinit : favInv favInit := by
    refine ⟨by decide, fun _ => rfl, fun _ => rfl⟩
  have hinv := favFold_inv f evs favInit hinit
  refine ⟨hinv.1, ?_, ?_, ?_, ?_⟩
  · intro h2
    cases htl : (favRun f evs).timerLive with
    | false => rfl
    | true =>
      have ha := hinv.2.1 (by simpa [favRun] using htl)
      simp only [favRun] at h2
      omega
  · have h1 : (favStep f favInit FavEvent.timerFires).timerLive = false := rfl
    have h2 : (favStep f favInit FavEvent.timerFires).attempts = 2 := rfl
    obtain ⟨g1, g2⟩ := favFold_dead f rest _ h1
    exact ⟨by rw [favRun, List.foldl_cons, g2, h2], by rw [favRun, List.foldl_cons]; exact g1⟩
  · rw [favRun, List.foldl_append]
    cases o2 with
    | err e =>
      exact favFold_settled_mono f rest _ _ rfl
    | ok r =>
      exact favFold_settled_mono f rest _ _ rfl
  · rw [favRun, List.foldl_append]
    cases o1 <;> cases o2 <;> exact favFold_settled_mono f rest _ _ rfl

/-- C3 witness: the retry bound and the no-pending-timer consequence at a
concrete run. -/
theorem generateFavicons_single_retry_witness :
    (favRun "out/pwa" [FavEvent.timerFires]).attempts = 2 ∧
    (favRun "out/pwa" [FavEvent.timerFires]).timerLive = false :=
  ⟨by decide,
    (generateFavicons_single_retry "out/pwa" (FavOutcome.err "x") (FavOutcome.err "x")
      [FavEvent.timerFires] []).2.2.1.2⟩

/-- C2 counterexample: when the first attempt errors while its timer is
still armed, the error is propagated, but the timer is NOT disarmed
(`timerLive` stays true: `clearTimeout` runs only in the fulfillment
continuation), and when the timer later fires a further retry attempt IS
issued (the attempt count reaches 2). -/
theorem generateFavicons_error_keeps_timer :
    (favRun "out/pwa" [FavEvent.callback1 (FavOutcome.err "boom")]).settled
        = some (Except.error "boom") ∧
    (favRun "out/pwa" [FavEvent.callback1 (FavOutcome.err "boom")]).timerLive = true ∧
    (favRun "out/pwa"
        [FavEvent.callback1 (FavOutcome.err "boom"), FavEvent.timerFires]).attempts = 2 := by
  refine ⟨by decide, by decide, by decide⟩

/-- C2 (amended): if the external capability reports an error on an attempt
whose timer is still armed, the error is propagated as a pipeline-fatal
rejection and the rejection is final (no later turn can re-settle the
promise); the timer, however, remains armed, and if it later fires one
further retry attempt is issued, whose settlement cannot change the
already-rejected promise. -/
theorem generateFavicons_error_rejects (f e : String) (rest : List FavEvent) :
    (favRun f [FavEvent.callback1 (FavOutcome.err e)]).settled = some (Except.error e) ∧
    (favRun f [FavEvent.callback1 (FavOutcome.err e)]).timerLive = true ∧
    (favRun f (FavEvent.callback1 (FavOutcome.err e) :: rest)).settled
        = some (Except.error e) ∧
    (favRun f ([FavEvent.callback1 (FavOutcome.err e), FavEvent.timerFires] ++ rest)).attempts
        = 2 := by
  have h1 : (favStep f favInit (FavEvent.callback1 (FavOutcome.err e))).settled
      = some (Except.error e) := rfl
  refine ⟨rfl, rfl, ?_, ?_⟩
  · rw [favRun, List.foldl_cons]
    exact favFold_settled_mono f rest _ _ h1
  · have hlive : ((([FavEvent.callback1 (FavOutcome.err e),
        FavEvent.timerFires]).foldl (favStep f) favInit)).timerLive = false := rfl
    have hatt : ((([FavEvent.callback1 (FavOutcome.err e),
        FavEvent.timerFires]).foldl (favStep f) favInit)).attempts = 2 := rfl
    rw [favRun, List.foldl_append]
    rw [(favFold_dead f rest _ hlive).2, hatt]

/-- C10: the timer guard suppresses only promise settlement, not
persistence: a first attempt that succeeds only after the timer fired still
writes every produced image and auxiliary file to the export folder, while
its resolution is ignored — the promise stays unsettled if the retry has
not called back yet, and keeps the settlement of the retry if it has. -/
theorem lateFirstAttempt_still_writes (f : String) (r : FavResponse) (o2 : FavOutcome) :
    (favRun f [FavEvent.timerFires, FavEvent.callback1 (FavOutcome.ok r)]).writes
        = favWritesOf f r ∧
    (favRun f [FavEvent.timerFires, FavEvent.callback1 (FavOutcome.ok r)]).settled = none ∧
    (favRun f [FavEvent.timerFires, FavEvent.callback2 o2,
        FavEvent.callback1 (FavOutcome.ok r)]).writes
        = outcomeWrites f o2 ++ favWritesOf f r ∧
    (favRun f [FavEvent.timerFires, FavEvent.callback2 o2,
        FavEvent.callback1 (FavOutcome.ok r)]).settled = outcomeSettle o2 := by
  cases o2 with
  | err e => exact ⟨by simp [favRun, favStep, favInit, favResolve, favReject, outcomeWrites], rfl,
      by simp [favRun, favStep, favInit, favResolve, favReject, outcomeWrites], rfl⟩
  | ok r2 => exact ⟨by simp [favRun, favStep, favInit, favResolve, favReject, outcomeWrites], rfl,
      by simp [favRun, favStep, favInit, favResolve, favReject, outcomeWrites], rfl⟩

/-! ### Path rewriter (`replaceRootPaths`)

`replaceRootPaths(folder, files)` (src/dist/index.js lines 116-134): for
each listed name joined under `folder`, when a file exists there, rewrite
every occurrence of `src="/` to `src="../` if the name ends in `.html` or
`.xml`, and every occurrence of `"/` to `"../` otherwise, writing the result
back in place; a missing path is skipped. -/

/-- The extension test of `replaceRootPaths`. -/
def isMarkupName (file : String) : Bool :=
  jsEndsWith file ".html" || jsEndsWith file ".xml"

/-- Rewrite the content of one listed file according to its extension. -/
def rewriteFileContent (file content : String) : String :=
  if isMarkupName file then replaceAllStr content "src=\"/" "src=\"../"
  else replaceAllStr content "\"/" "\"../"

/-- One iteration of the `replaceRootPaths` loop on the filesystem. -/
def rrStep (folder : String) (clockMs : Nat) (fs : FS) (file : String) : FS :=
  match fs (pathJoin folder file) with
  | some (Entry.file _ c) =>
      fs.write (pathJoin folder file) (Entry.file clockMs (rewriteFileContent file c))
  | _ => fs

/-- The whole `replaceRootPaths` pass over a filesystem.  `writeFileSync`
stamps the file with the running clock. -/
def replaceRootPaths (folder : String) (files : List String) (clockMs : Nat) (fs : FS) : FS :=
  files.foldl (rrStep folder clockMs) fs

theorem rrStep_other (folder file : String) (clockMs : Nat) (fs : FS)
    {p : String} (h : p ≠ pathJoin folder file) :
    rrStep folder clockMs fs file p = fs p := by
  unfold rrStep
  cases hf : fs (pathJoin folder file) with
  | none => rfl
  | some e => cases e with
    | dir t => rfl
    | file t c => exact fs.write_other _ h

theorem replaceRootPaths_not_listed (folder : String) (files : List String) (clockMs : Nat)
    (fs : FS) (p : String) (h : ∀ m ∈ files, p ≠ pathJoin folder m) :
    replaceRootPaths folder files clockMs fs p = fs p := by
  induction files generalizing fs with
  | nil => rfl
  | cons a rest ih =>
    calc replaceRootPaths folder (a :: rest) clockMs fs p
        = replaceRootPaths folder rest clockMs (rrStep folder clockMs fs a) p := rfl
      _ = (rrStep folder clockMs fs a) p :=
          ih (rrStep folder clockMs fs a) (fun m hm => h m (List.mem_cons_of_mem a hm))
      _ = fs p := rrStep_other folder a clockMs fs (h a (List.mem_cons_self a rest))

theorem replaceRootPaths_listed (folder : String) (files : List String) (clockMs : Nat)
    (fs : FS) (n : String) (hn : n ∈ files) (hnd : files.Nodup) :
    replaceRootPaths folder files clockMs fs (pathJoin folder n)
      = (match fs (pathJoin folder n) with
          | some (Entry.file _ c) => some (Entry.file clockMs (rewriteFileContent n c))
          | other => other) := by
  induction files generalizing fs with
  | nil => cases hn
  | cons a rest ih =>
    have hstep : replaceRootPaths folder (a :: rest) clockMs fs
        = replaceRootPaths folder rest clockMs (rrStep folder clockMs fs a) := rfl
    rw [hstep]
    rcases List.mem_cons.mp hn with rfl | hmem
    · have hrest : ∀ m ∈ rest, pathJoin folder n ≠ pathJoin folder m := by
        intro m hm heq
        exact (List.nodup_cons.mp hnd).1 (pathJoin_inj_right heq ▸ hm)
      rw [replaceRootPaths_not_listed folder rest clockMs _ _ hrest]
      unfold rrStep
      cases hf : fs (pathJoin folder n) with
      | none => simp [hf]
      | some e => cases e with
        | dir t => simp [hf]
        | file t c => simp [hf, FS.write_self]
    · have hne : pathJoin folder n ≠ pathJoin folder a := by
        intro heq
        exact (List.nodup_cons.mp hnd).1 (pathJoin_inj_right heq ▸ hmem)
      rw [ih (rrStep folder clockMs fs a) hmem (List.nodup_cons.mp hnd).2]
      rw [rrStep_other folder a clockMs fs hne]

/-- C7: `replaceRootPaths` rewrites, in place, every occurrence of
`src="/` to `src="../` in each listed `.html`/`.xml` file, and every
occurrence of `"/` to `"../` in every other listed file (so a manifest
fragment `"src":"/pwa/icon.png"` becomes `"src":"../pwa/icon.png"` and an
HTML fragment `src="/pwa/icon.png"` becomes `src="../pwa/icon.png"`); a
listed file that does not exist is silently skipped, and a path that is not
one of the listed names is left untouched. -/
theorem replaceRootPaths_spec (folder : String) (files : List String) (clockMs : Nat)
    (fs : FS) (n : String) (hn : n ∈ files) (hnd : files.Nodup) :
    (∀ t c, isMarkupName n = true → fs (pathJoin folder n) = some (Entry.file t c) →
      fileContent (replaceRootPaths folder files clockMs fs) (pathJoin folder n)
        = some (replaceAllStr c "src=\"/" "src=\"../")) ∧
    (∀ t c, isMarkupName n = false → fs (pathJoin folder n) = some (Entry.file t c) →
      fileContent (replaceRootPaths folder files clockMs fs) (pathJoin folder n)
        = some (replaceAllStr c "\"/" "\"../")) ∧
    (fs (pathJoin folder n) = none →
      replaceRootPaths folder files clockMs fs (pathJoin folder n) = none) ∧
    (∀ p, (∀ m ∈ files, p ≠ pathJoin folder m) →
      replaceRootPaths folder files clockMs fs p = fs p) ∧
    rewriteFileContent "manifest.json" "\"src\":\"/pwa/icon.png\""
      = "\"src\":\"../pwa/icon.png\"" ∧
    rewriteFileContent "index.html" "<img src=\"/pwa/icon.png\">"
      = "<img src=\"../pwa/icon.png\">" := by
  have hl := replaceRootPaths_listed folder files clockMs fs n hn hnd
  refine ⟨?_, ?_, ?_, ?_, by decide, by decide⟩
  · intro t c hm hf
    rw [fileContent, hl, hf]
    simp [rewriteFileContent, hm]
  · intro t c hm hf
    rw [fileContent, hl, hf]
    simp [rewriteFileContent, hm]
  · intro hf
    rw [hl, hf]
  · exact replaceRootPaths_not_listed folder files clockMs fs

/-- A concrete association-list filesystem (later bindings shadowed by
earlier ones). -/
def fsOfPairs : List (String × Entry) → FS
  | [] => fun _ => none
  | (k, e) :: rest => (fsOfPairs rest).write k e

/-- C7 witness: the four-name rewrite pass at a concrete filesystem holding
a manifest fragment; the non-markup branch rewrites its quoted root path. -/
theorem replaceRootPaths_spec_witness :
    ("manifest.json" ∈ ["manifest.json", "yandex-browser-manifest.json", "manifest.webapp",
        "browserconfig.xml"]) ∧
    fileContent
      (replaceRootPaths "public/pwa"
        ["manifest.json", "yandex-browser-manifest.json", "manifest.webapp", "browserconfig.xml"]
        5000
        (fsOfPairs [(pathJoin "public/pwa" "manifest.json",
          Entry.file 10 "\"src\":\"/pwa/icon.png\"")]))
      (pathJoin "public/pwa" "manifest.json")
      = some (replaceAllStr "\"src\":\"/pwa/icon.png\"" "\"/" "\"../") := by
  refine ⟨by decide, ?_⟩
  exact (replaceRootPaths_spec "public/pwa"
    ["manifest.json", "yandex-browser-manifest.json", "manifest.webapp", "browserconfig.xml"]
    5000 _ "manifest.json" (by decide) (by decide)).2.1 10 "\"src\":\"/pwa/icon.png\""
    (by decide) (by decide)

/-! ### Manifest merge (maskable icons)

src/dist/index.js lines 230-270: for each declared maskable icon, resolve
its `src` against the output root with `path.join`; when the resolved file
exists, scan the icon entries of the parsed manifest — but only when the joined
path starts with the literal string `pwa` — marking every entry whose `src`
ends with the slash-prefixed joined path as `purpose = "any maskable"`; when no entry
was marked, append a fresh entry with the `src` climbed one level.  When
the resolved file is missing, warn and continue.  When the manifest failed
to parse (`manifest` is `undefined`), touching `manifest.icons` throws a
`TypeError` that escapes the surrounding code. -/

/-- A maskable icon reference from the config. -/
structure MaskableIcon where
  src : String
  sizes : String
  type : String
deriving DecidableEq

/-- A manifest icon entry. -/
structure ManifestIcon where
  src : String
  sizes : String
  type : String
  purpose : Option String
deriving DecidableEq

/-- The parsed manifest (only its `icons` array is touched). -/
structure Manifest where
  icons : List ManifestIcon
deriving DecidableEq

/-- The inner scan: set `purpose` of every entry whose `src` ends with
the slash-prefixed path `p`. -/
def markAnyMaskable (p : String) (icons : List ManifestIcon) : List ManifestIcon :=
  icons.map (fun i =>
    if jsEndsWith i.src ("/" ++ p) then { i with purpose := some "any maskable" } else i)

/-- The body of one loop iteration for an icon whose resolved file exists,
given a successfully parsed manifest. -/
def processMaskableIcon (publicFolder : String) (m : Manifest) (ic : MaskableIcon) : Manifest :=
  let p := pathJoin publicFolder ic.src
  let inPwa := jsStartsWith p "pwa"
  let found := inPwa && m.icons.any (fun i => jsEndsWith i.src ("/" ++ p))
  let icons1 := if inPwa then markAnyMaskable p m.icons else m.icons
  if found then { icons := icons1 }
  else
    { icons := icons1 ++
        [{ src := "../" ++ ic.src, sizes := ic.sizes, type := ic.type,
           purpose := some "maskable" }] }

/-- The maskable-icon loop: threads the (possibly undefined) manifest and
collects warnings; dereferencing an undefined manifest throws. -/
def mergeLoop (publicFolder : String) (fs : FS) :
    Option Manifest → List MaskableIcon → Except String (Option Manifest) × List String
  | m?, [] => (Except.ok m?, [])
  | m?, ic :: rest =>
    if (fs (pathJoin publicFolder ic.src)).isSome then
      match m? with
      | none => (Except.error "TypeError: cannot read properties of undefined", [])
      | some m => mergeLoop publicFolder fs (some (processMaskableIcon publicFolder m ic)) rest
    else
      let r := mergeLoop publicFolder fs m? rest
      (r.1, ("maskable icon file does not exist: " ++ pathJoin publicFolder ic.src) :: r.2)

/-- Following the words of the spec: the resolved path lies inside the
favicon output subfolder (`<output>/pwa/`).  Stated for comparison with the
`joinedPath.startsWith(pwa)` test of the code. -/
def specInsideFaviconSubfolder (publicFolder p : String) : Bool :=
  jsStartsWith p (pathJoin publicFolder "pwa" ++ "/")

/-- C4: with the default-style target folder `public`, a maskable icon
resolved inside the favicon output subfolder whose resolved path is a
suffix of the `src` of an existing entry is NOT deduplicated: the
`path.join(publicFolder, src).startsWith(pwa)` test of the code is false (the joined
path starts with the target folder), so the existing entry keeps its
purpose and a duplicate entry with `purpose = "maskable"` is appended. -/
theorem maskable_dedup_never_fires :
    specInsideFaviconSubfolder "public" (pathJoin "public" "pwa/a.png") = true ∧
    jsEndsWith "/public/pwa/a.png" (pathJoin "public" "pwa/a.png") = true ∧
    processMaskableIcon "public"
        (Manifest.mk [ManifestIcon.mk "/public/pwa/a.png" "512x512" "image/png" none])
        (MaskableIcon.mk "pwa/a.png" "512x512" "image/png")
      = Manifest.mk
          [ManifestIcon.mk "/public/pwa/a.png" "512x512" "image/png" none,
           ManifestIcon.mk "../pwa/a.png" "512x512" "image/png" (some "maskable")] := by
  refine ⟨by decide, by decide, by decide⟩

/-- C5 counterexample: a maskable icon resolved OUTSIDE the favicon output
subfolder (target folder `pwa`, so the resolved path is `pwa/a.png` while
the favicon subfolder is `pwa/pwa/`) for which the code nevertheless finds
a match: no new entry is appended — the existing entry is marked instead —
contradicting the claim that every icon resolved outside the favicon output
subfolder gets exactly one appended entry. -/
theorem maskable_outside_subfolder_not_appended :
    specInsideFaviconSubfolder "pwa" (pathJoin "pwa" "a.png") = false ∧
    processMaskableIcon "pwa"
        (Manifest.mk [ManifestIcon.mk "x/pwa/a.png" "512x512" "image/png" none])
        (MaskableIcon.mk "a.png" "512x512" "image/png")
      = Manifest.mk [ManifestIcon.mk "x/pwa/a.png" "512x512" "image/png" (some "any maskable")] := by
  refine ⟨by decide, by decide⟩

theorem map_if_of_any_false {α : Type} (l : List α) (pred : α → Bool) (f : α → α)
    (h : l.any pred = false) : l.map (fun i => if pred i then f i else i) = l := by
  induction l with
  | nil => rfl
  | cons a rest ih =>
    simp only [List.any_cons, Bool.or_eq_false_iff] at h
    simp [h.1, ih h.2]

/-- C5 (amended): for every maskable icon whose resolved file exists and
which the code does not treat as matching an existing entry — i.e. not both
(the joined path starts with the literal `pwa`) and (the `src` of some
entry ends with the slash-prefixed joined path) — exactly one new entry
`{src: "../" + src, sizes, type, purpose: "maskable"}` is appended and no
existing entry is modified; and for every maskable icon whose resolved file
does not exist, a non-fatal warning is emitted and the manifest is passed
on unchanged.  (An icon resolved outside the favicon output subfolder can
still be treated as matching when the name of the target folder starts with
`pwa`.) -/
theorem maskable_append_spec (publicFolder : String) (m : Manifest) (ic : MaskableIcon)
    (fs : FS) (m? : Option Manifest) (rest : List MaskableIcon)
    (hnf : ¬(jsStartsWith (pathJoin publicFolder ic.src) "pwa" = true ∧
      m.icons.any (fun i => jsEndsWith i.src ("/" ++ pathJoin publicFolder ic.src)) = true)) :
    processMaskableIcon publicFolder m ic
      = Manifest.mk (m.icons ++
          [ManifestIcon.mk ("../" ++ ic.src) ic.sizes ic.type (some "maskable")]) ∧
    ((fs (pathJoin publicFolder ic.src)).isSome = false →
      mergeLoop publicFolder fs m? (ic :: rest)
        = ((mergeLoop publicFolder fs m? rest).1,
            ("maskable icon file does not exist: " ++ pathJoin publicFolder ic.src)
              :: (mergeLoop publicFolder fs m? rest).2)) := by
  constructor
  · unfold processMaskableIcon
    cases hpwa : jsStartsWith (pathJoin publicFolder ic.src) "pwa" with
    | false => simp [hpwa]
    | true =>
      have hany : m.icons.any
          (fun i => jsEndsWith i.src ("/" ++ pathJoin publicFolder ic.src)) = false := by
        cases hl : m.icons.any (fun i => jsEndsWith i.src ("/" ++ pathJoin publicFolder ic.src))
        · rfl
        · exact absurd ⟨hpwa, hl⟩ hnf
      have hmark : markAnyMaskable (pathJoin publicFolder ic.src) m.icons = m.icons := by
        unfold markAnyMaskable
        exact map_if_of_any_false _ _ _ hany
      simp [hpwa, hany, hmark]
  · intro hmiss
    simp [mergeLoop, hmiss]

/-- C5 witness: an icon resolved outside anything `pwa`-prefixed gets its
single appended entry, and a missing icon file yields the warning and an
unchanged manifest. -/
theorem maskable_append_spec_witness :
    processMaskableIcon "public"
        (Manifest.mk [ManifestIcon.mk "/pwa/b.png" "192x192" "image/png" none])
        (MaskableIcon.mk "icons/m.png" "512x512" "image/png")
      = Manifest.mk
          [ManifestIcon.mk "/pwa/b.png" "192x192" "image/png" none,
           ManifestIcon.mk "../icons/m.png" "512x512" "image/png" (some "maskable")] ∧
    mergeLoop "public" (fsOfPairs []) (some (Manifest.mk []))
        [MaskableIcon.mk "icons/m.png" "512x512" "image/png"]
      = (Except.ok (some (Manifest.mk [])),
          ["maskable icon file does not exist: " ++ pathJoin "public" "icons/m.png"]) := by
  have h := maskable_append_spec "public"
    (Manifest.mk [ManifestIcon.mk "/pwa/b.png" "192x192" "image/png" none])
    (MaskableIcon.mk "icons/m.png" "512x512" "image/png")
    (fsOfPairs []) (some (Manifest.mk [])) [] (by decide)
  refine ⟨h.1, ?_⟩
  rw [h.2 (by decide)]
  simp [mergeLoop]

/-! ### The pipeline (`generateApp`)

src/dist/index.js lines 135-325 as a function from the initial filesystem,
the parsed config, the entry clock and the external-collaborator outcomes
to a run result.  External collaborators: the settled result of the
`generateFavicons` promise (whose internal timing is the `favRun` machine
above), `JSON.parse`/`JSON.stringify` for the manifest, and the handlebars
template engine. -/

/-- The parsed application config (`JSON.parse` of the config file text).
String fields that are only forwarded to external collaborators are carried
verbatim. -/
structure Config where
  appName : String
  appShortDescription : String
  appShortName : String
  appDescription : String
  developerName : String
  developerURL : String
  background : String
  theme_color : String
  appleStatusBarStyle : String
  display : String
  url : Option String
  preview : Option String
  icon : Option String
  maskable_icons : Option (List MaskableIcon)
  ensName : Option String
  base : Option String
deriving DecidableEq

/-- The options record assembled by the CLI layer. -/
structure Options where
  configPath : String
  templateFilePath : String
  targetFolder : String
  cachePath : Option String
  targetFile : Option String
  applicationURL : Option String
  version : Option String
  force : Bool
deriving DecidableEq

/-- External collaborators of one run.  `favOutcome` is the settled result
of `generateFavicons` (an `Except.ok` also lists the files the callback
wrote); `parseManifest` is `JSON.parse` on the manifest text (`none` when
it throws); `printManifest` is `JSON.stringify` with two-space indentation;
`render` is the compiled handlebars template applied to the render context;
`manifestWriteFails` makes the manifest write-back throw;
`commitNowMs` is the `Date.now()` sampled for the content of the cache
file. -/
structure Ext where
  favOutcome : Except String FavResponse
  parseManifest : String → Option Manifest
  printManifest : Manifest → String
  render : String → String
  manifestWriteFails : Bool
  commitNowMs : Nat

/-- Observable pipeline effects, in order of occurrence. -/
inductive Eff
  | ensureDir (p : String)
  | exitP (code : Nat)
  | robotsWrite (p : String)
  | faviconGen
  | assetWrite (p : String)
  | manifestWrite (p : String)
  | pathRewrite (folder : String)
  | docWrite (p : String)
  | cacheCommit (p : String)
deriving DecidableEq

/-- How a run ends: full completion, the staleness-gate early return,
`process.exit`, or a thrown/rejected error. -/
inductive Outcome
  | completed
  | skipped
  | exited (code : Nat)
  | threw (e : String)
deriving DecidableEq

/-- The result of one `generateApp` run. -/
structure RunResult where
  fs : FS
  outcome : Outcome
  trace : List Eff
  warns : List String
  errs : List String

/-- Lines 148-156: the cache file path (an empty `--cache` value is falsy
and falls back to the default, which probes for `node_modules`). -/
def cacheFileOf (opts : Options) (fs : FS) : String :=
  if truthy opts.cachePath then opts.cachePath.getD ""
  else if (fs "node_modules").isSome then pathJoin "node_modules" ".prepare-for-web-cache"
  else ".prepare-for-web-cache"

/-- Lines 159-167: the SourceSet paths (config, template, the icon when
truthy, and the src of each maskable icon joined under the target
folder). -/
def sourcesOf (opts : Options) (config : Config) : List String :=
  [opts.configPath, opts.templateFilePath]
    ++ (if truthy config.icon then [config.icon.getD ""] else [])
    ++ (match config.maskable_icons with
        | some icons => icons.map (fun mi => pathJoin opts.targetFolder mi.src)
        | none => [])

/-- Lines 168-175: the maximum source mtime, substituting the current time
for a source whose stat throws. -/
def maxTimeOf (fs : FS) (nowMs : Nat) (sources : List String) : Nat :=
  (sources.map (fun v => (statMtime fs v).getD nowMs)).foldl Nat.max 0

/-- Lines 176-182: the mtime of the cache file, 0 when its stat throws. -/
def lastTimeOf (fs : FS) (cacheFile : String) : Nat :=
  (statMtime fs cacheFile).getD 0

/-- Lines 203-208: strip a leading protocol from the derived ENS name. -/
def stripProtocol (e : String) : String :=
  let e1 := if jsStartsWith e "https://" then jsDropLeft e 8 else e
  if jsStartsWith e1 "http://" then jsDropLeft e1 7 else e1

/-- Lines 193-201: the derived ENS name (before protocol stripping);
`config` is the config after the URL override was applied. -/
def ensNameOf (config : Config) : Option String :=
  let e1 : Option String :=
    match config.ensName with
    | some e => if ¬(e = "") ∧ ¬(jsEndsWith e ".eth" = true) then some (e ++ ".eth") else some e
    | none => none
  if ¬(truthy e1 = true) ∧ truthy config.url = true ∧
      (jsEndsWith (config.url.getD "") ".eth.link" = true ∨
        jsEndsWith (config.url.getD "") ".eth.limo" = true)
  then some (jsDropRight (config.url.getD "") 5)
  else e1

/-- Output of the manifest block: a thrown error (when set, the filesystem
and logs are those at the moment of the throw), the filesystem, the trace
fragment, warnings and errors. -/
structure StepOut where
  thrown : Option String
  fs : FS
  trace : List Eff
  warns : List String
  errs : List String

/-- The manifest path under the favicon folder. -/
def manifestPathOf (opts : Options) : String :=
  pathJoin (pathJoin opts.targetFolder "pwa") "manifest.json"

/-- Lines 232-238: the best-effort `JSON.parse` of the manifest file
(`none` when the read or the parse throws; the error is reported and
`manifest` stays undefined). -/
def parsedManifest (opts : Options) (ext : Ext) (fs : FS) : Option Manifest :=
  match fileContent fs (manifestPathOf opts) with
  | some text => ext.parseManifest text
  | none => none

/-- The error report of a failed manifest parse. -/
def parseErrsOf (opts : Options) (ext : Ext) (fs : FS) : List String :=
  if (parsedManifest opts ext fs).isNone then
    ["failed to parse manifest (" ++ manifestPathOf opts ++ ")"]
  else []

/-- Lines 230-270: the maskable-icons manifest block — best-effort parse,
the merge loop (which throws a `TypeError` if the manifest is undefined and
a maskable icon file exists), and the best-effort write-back
(`JSON.stringify(undefined)` is `undefined`, so an undefined manifest makes
the guarded write throw and be reported). -/
def manifestStep (opts : Options) (ext : Ext) (nowMs : Nat) (micons : List MaskableIcon)
    (fs : FS) : StepOut :=
  match mergeLoop opts.targetFolder fs (parsedManifest opts ext fs) micons with
  | (Except.error e, warns) =>
    { thrown := some e
      fs := fs
      trace := []
      warns := warns
      errs := parseErrsOf opts ext fs }
  | (Except.ok none, warns) =>
    { thrown := none
      fs := fs
      trace := []
      warns := warns
      errs := parseErrsOf opts ext fs
        ++ ["failed to write manifest (" ++ manifestPathOf opts ++ ")"] }
  | (Except.ok (some m), warns) =>
    if ext.manifestWriteFails then
      { thrown := none
        fs := fs
        trace := []
        warns := warns
        errs := parseErrsOf opts ext fs
          ++ ["failed to write manifest (" ++ manifestPathOf opts ++ ")"] }
    else
      { thrown := none
        fs := fs.write (manifestPathOf opts) (Entry.file nowMs (ext.printManifest m))
        trace := [Eff.manifestWrite (manifestPathOf opts)]
        warns := warns
        errs := parseErrsOf opts ext fs }

/-- The four conditionally produced files listed for the rewrite pass. -/
def rewriteNames : List String :=
  ["manifest.json", "yandex-browser-manifest.json", "manifest.webapp", "browserconfig.xml"]

/-- Line 112: the document destination (explicit override file name when
truthy, else `index.html` under the output folder). -/
def docDest (opts : Options) : String :=
  if truthy opts.targetFile then opts.targetFile.getD ""
  else pathJoin opts.targetFolder "index.html"

/-- Lines 271-314: path rewrite under the favicon folder, then the
rendered document written at the destination (the template is read after
the rewrite pass). -/
def fsAfterDoc (opts : Options) (ext : Ext) (nowMs : Nat) (fs : FS) : FS :=
  (replaceRootPaths (pathJoin opts.targetFolder "pwa") rewriteNames nowMs fs).write
    (docDest opts)
    (Entry.file nowMs (ext.render
      ((fileContent (replaceRootPaths (pathJoin opts.targetFolder "pwa") rewriteNames nowMs fs)
        opts.templateFilePath).getD "")))

/-- Lines 315-323: the cache commit — the mtime of every source pinned to the
build-start second, then the cache file written (content `Date.now()` at
the commit) and its mtime pinned to the same second. -/
def commitFS (sources : List String) (cacheFile : String) (nowMs : Nat) (ext : Ext)
    (fsD : FS) : FS :=
  ((sources.foldl (fun acc s => acc.trySetMtimeSecs s (nowMs / 1000)) fsD).write cacheFile
      (Entry.file nowMs (toString ext.commitNowMs))).trySetMtimeSecs cacheFile (nowMs / 1000)

/-- Lines 271-324: the tail of the pipeline — path rewrite under the
favicon folder, document assembly, and the cache commit. -/
def finishPipeline (opts : Options) (ext : Ext) (nowMs : Nat) (sources : List String)
    (cacheFile : String) (fs : FS) (tr : List Eff) (warns errs : List String) : RunResult :=
  { fs := commitFS sources cacheFile nowMs ext (fsAfterDoc opts ext nowMs fs)
    outcome := Outcome.completed
    trace := tr ++ [Eff.pathRewrite (pathJoin opts.targetFolder "pwa"), Eff.docWrite (docDest opts),
      Eff.cacheCommit cacheFile]
    warns := warns
    errs := errs }

/-- Line 139: the filesystem right after `ensureDirSync(publicFolder)`. -/
def fs1Of (opts : Options) (nowMs : Nat) (fs0 : FS) : FS :=
  fs0.ensureDir opts.targetFolder nowMs

/-- Lines 187-190: the config after the URL override. -/
def cfgAfterURL (opts : Options) (config : Config) : Config :=
  if truthy opts.applicationURL then { config with url := opts.applicationURL } else config

/-- The robots file path. -/
def robotsPathOf (opts : Options) : String := pathJoin opts.targetFolder "robots.txt"

/-- The favicon output folder. -/
def favFolderOf (opts : Options) : String := pathJoin opts.targetFolder "pwa"

/-- Lines 202-212: the filesystem after the conditional robots write and
`ensureDirSync(faviconFolder)`. -/
def fsPreFav (opts : Options) (config : Config) (nowMs : Nat) (fs0 : FS) : FS :=
  (if truthy (ensNameOf (cfgAfterURL opts config)) then
      (fs1Of opts nowMs fs0).write (robotsPathOf opts)
        (Entry.file nowMs
          ("Dwebsite: " ++ stripProtocol ((ensNameOf (cfgAfterURL opts config)).getD "")))
    else fs1Of opts nowMs fs0).ensureDir (favFolderOf opts) nowMs

/-- The trace up to and including the favicon invocation. -/
def trPreFav (opts : Options) (config : Config) : List Eff :=
  [Eff.ensureDir opts.targetFolder]
    ++ (if truthy (ensNameOf (cfgAfterURL opts config)) then
          [Eff.robotsWrite (robotsPathOf opts)] else [])
    ++ [Eff.ensureDir (favFolderOf opts), Eff.faviconGen]

/-- Lines 22-29 via the callback: every produced image and auxiliary file
written under the favicon folder. -/
def fsAfterFav (opts : Options) (nowMs : Nat) (resp : FavResponse) (fs3 : FS) : FS :=
  (favWritesOf (favFolderOf opts) resp).foldl
    (fun acc pc => acc.write pc.1 (Entry.file nowMs pc.2)) fs3

/-- The asset-write trace of a successful favicon call. -/
def trFav (opts : Options) (resp : FavResponse) : List Eff :=
  (favWritesOf (favFolderOf opts) resp).map (fun pc => Eff.assetWrite pc.1)

/-- `generateApp(options)` (src/dist/index.js lines 135-325). -/
def generateApp (opts : Options) (config : Config) (ext : Ext) (nowMs : Nat) (fs0 : FS) :
    RunResult :=
  if ((fs1Of opts nowMs fs0) opts.configPath).isNone then
    { fs := fs1Of opts nowMs fs0
      outcome := Outcome.exited 1
      trace := [Eff.ensureDir opts.targetFolder, Eff.exitP 1]
      warns := []
      errs := ["The " ++ opts.configPath ++ " file is required to prepare the web application"] }
  else if ((fs1Of opts nowMs fs0) opts.templateFilePath).isNone then
    { fs := fs1Of opts nowMs fs0
      outcome := Outcome.exited 1
      trace := [Eff.ensureDir opts.targetFolder, Eff.exitP 1]
      warns := []
      errs := ["The " ++ opts.templateFilePath ++ " file is required to prepare the web application"] }
  else if opts.force = false ∧
      maxTimeOf (fs1Of opts nowMs fs0) nowMs (sourcesOf opts config)
        ≤ lastTimeOf (fs1Of opts nowMs fs0) (cacheFileOf opts (fs1Of opts nowMs fs0)) then
    { fs := fs1Of opts nowMs fs0
      outcome := Outcome.skipped
      trace := [Eff.ensureDir opts.targetFolder]
      warns := []
      errs := [] }
  else
    match ext.favOutcome with
    | Except.error e =>
      { fs := fsPreFav opts config nowMs fs0
        outcome := Outcome.threw e
        trace := trPreFav opts config
        warns := []
        errs := [] }
    | Except.ok resp =>
      match (cfgAfterURL opts config).maskable_icons with
      | none =>
        finishPipeline opts ext nowMs (sourcesOf opts config)
          (cacheFileOf opts (fs1Of opts nowMs fs0))
          (fsAfterFav opts nowMs resp (fsPreFav opts config nowMs fs0))
          (trPreFav opts config ++ trFav opts resp) [] []
      | some micons =>
        match (manifestStep opts ext nowMs micons
            (fsAfterFav opts nowMs resp (fsPreFav opts config nowMs fs0))).thrown with
        | some e =>
          { fs := (manifestStep opts ext nowMs micons
              (fsAfterFav opts nowMs resp (fsPreFav opts config nowMs fs0))).fs
            outcome := Outcome.threw e
            trace := trPreFav opts config ++ trFav opts resp
              ++ (manifestStep opts ext nowMs micons
                  (fsAfterFav opts nowMs resp (fsPreFav opts config nowMs fs0))).trace
            warns := (manifestStep opts ext nowMs micons
                (fsAfterFav opts nowMs resp (fsPreFav opts config nowMs fs0))).warns
            errs := (manifestStep opts ext nowMs micons
                (fsAfterFav opts nowMs resp (fsPreFav opts config nowMs fs0))).errs }
        | none =>
          finishPipeline opts ext nowMs (sourcesOf opts config)
            (cacheFileOf opts (fs1Of opts nowMs fs0))
            (manifestStep opts ext nowMs micons
              (fsAfterFav opts nowMs resp (fsPreFav opts config nowMs fs0))).fs
            (trPreFav opts config ++ trFav opts resp
              ++ (manifestStep opts ext nowMs micons
                  (fsAfterFav opts nowMs resp (fsPreFav opts config nowMs fs0))).trace)
            (manifestStep opts ext nowMs micons
              (fsAfterFav opts nowMs resp (fsPreFav opts config nowMs fs0))).warns
            (manifestStep opts ext nowMs micons
              (fsAfterFav opts nowMs resp (fsPreFav opts config nowMs fs0))).errs

/-! ### Concrete fixtures -/

/-- A minimal config: no icon, no maskable icons, no ENS data. -/
def cfgPlain : Config :=
  { appName := "App"
    appShortDescription := "short"
    appShortName := "App"
    appDescription := "desc"
    developerName := "dev"
    developerURL := "https://example.org"
    background := "#fff"
    theme_color := "#fff"
    appleStatusBarStyle := "default"
    display := "standalone"
    url := none
    preview := none
    icon := none
    maskable_icons := none
    ensName := none
    base := none }

/-- Like `cfgPlain` with one declared maskable icon. -/
def cfgMask : Config :=
  { cfgPlain with maskable_icons := some [MaskableIcon.mk "icon.png" "512x512" "image/png"] }

/-- External collaborators for runs that never reach the favicon call. -/
def ext0 : Ext :=
  { favOutcome := Except.error "unused"
    parseManifest := fun _ => none
    printManifest := fun _ => ""
    render := fun s => s
    manifestWriteFails := false
    commitNowMs := 4321 }

/-- Options with the force flag unset, explicit cache path. -/
def optsSkip : Options :=
  { configPath := "app.json"
    templateFilePath := "tpl.html"
    targetFolder := "public"
    cachePath := some "cache"
    targetFile := none
    applicationURL := none
    version := none
    force := false }

/-- Options with the force flag set, explicit cache path. -/
def optsForce : Options := { optsSkip with force := true }

/-- Config and template older than the cache marker; no target folder yet. -/
def fsSkip : FS :=
  fsOfPairs
    [("app.json", Entry.file 100 "cfg"), ("tpl.html", Entry.file 100 "tpl"),
     ("cache", Entry.file 200 "1")]

/-! ### C1: the staleness gate -/

/-- C1 counterexample: a run in which the force flag is unset and the cache
marker mtime (200) dominates every source mtime (100) returns with
outcome `skipped`, yet it is not free of side effects: the unconditional
`ensureDirSync(publicFolder)` at entry (line 139, before the gate) creates
the target folder, so the filesystem after the run differs from the
filesystem before it. -/
theorem generateApp_skip_creates_target_folder :
    (optsSkip.force = false ∧
      maxTimeOf (fs1Of optsSkip 1000 fsSkip) 1000 (sourcesOf optsSkip cfgPlain)
        ≤ lastTimeOf (fs1Of optsSkip 1000 fsSkip)
            (cacheFileOf optsSkip (fs1Of optsSkip 1000 fsSkip))) ∧
    (generateApp optsSkip cfgPlain ext0 1000 fsSkip).outcome = Outcome.skipped ∧
    fsSkip "public" = none ∧
    (generateApp optsSkip cfgPlain ext0 1000 fsSkip).fs "public" ≠ none := by
  refine ⟨⟨rfl, by decide⟩, by decide, by decide, by decide⟩

/-- C1 (amended): when the force flag is unset and the cache marker mtime
is at least the maximum source mtime, `generateApp` returns without
proceeding — no favicon generation, no manifest write, no path rewriting,
no document write and no cache-marker update occur; the only
filesystem effect is the unconditional ensure-directory of the target
folder performed at entry, before the gate. -/
theorem generateApp_gate_no_effects (opts : Options) (config : Config) (ext : Ext)
    (nowMs : Nat) (fs0 : FS)
    (hc : ((fs1Of opts nowMs fs0) opts.configPath).isNone = false)
    (ht : ((fs1Of opts nowMs fs0) opts.templateFilePath).isNone = false)
    (hforce : opts.force = false)
    (hgate : maxTimeOf (fs1Of opts nowMs fs0) nowMs (sourcesOf opts config)
      ≤ lastTimeOf (fs1Of opts nowMs fs0) (cacheFileOf opts (fs1Of opts nowMs fs0))) :
    generateApp opts config ext nowMs fs0
      = { fs := fs1Of opts nowMs fs0
          outcome := Outcome.skipped
          trace := [Eff.ensureDir opts.targetFolder]
          warns := []
          errs := [] } := by
  unfold generateApp
  simp [hc, ht, hforce, hgate]

/-- C1 witness: the amended gate theorem at the concrete skip run. -/
theorem generateApp_gate_no_effects_witness :
    (((fs1Of optsSkip 1000 fsSkip) optsSkip.configPath).isNone = false) ∧
    generateApp optsSkip cfgPlain ext0 1000 fsSkip
      = { fs := fs1Of optsSkip 1000 fsSkip
          outcome := Outcome.skipped
          trace := [Eff.ensureDir optsSkip.targetFolder]
          warns := []
          errs := [] } :=
  ⟨by decide,
    generateApp_gate_no_effects optsSkip cfgPlain ext0 1000 fsSkip (by decide) (by decide)
      (by decide) (by decide)⟩

/-! ### C6: manifest parse failure is not recoverable when an icon exists -/

/-- External collaborators for a run whose generated manifest does not
parse. -/
def extBadManifest : Ext :=
  { favOutcome := Except.ok (FavResponse.mk [] [("manifest.json", "not json")] [])
    parseManifest := fun _ => none
    printManifest := fun _ => ""
    render := fun s => s
    manifestWriteFails := false
    commitNowMs := 0 }

/-- Inputs present, declared maskable icon file present. -/
def fsMask : FS :=
  fsOfPairs
    [("app.json", Entry.file 100 "cfg"), ("tpl.html", Entry.file 100 "tpl"),
     ("public/icon.png", Entry.file 100 "png")]

/-- C6: when the generated manifest cannot be parsed while maskable icons
are configured and a maskable icon file exists, the run does NOT continue:
`manifest` stays `undefined` after the reported parse failure, and the loop
dereferences `manifest.icons` outside the try block, so a `TypeError` is
thrown and the run ends before the path rewrite, the document write and
the cache commit (the trace ends at the favicon asset write). -/
theorem manifest_parse_failure_aborts :
    (generateApp optsForce cfgMask extBadManifest 1000 fsMask).outcome
        = Outcome.threw "TypeError: cannot read properties of undefined" ∧
    (generateApp optsForce cfgMask extBadManifest 1000 fsMask).trace
        = [Eff.ensureDir "public", Eff.ensureDir "public/pwa", Eff.faviconGen,
           Eff.assetWrite "public/pwa/manifest.json"] ∧
    (generateApp optsForce cfgMask extBadManifest 1000 fsMask).errs
        = ["failed to parse manifest (public/pwa/manifest.json)"] ∧
    (generateApp optsForce cfgMask extBadManifest 1000 fsMask).fs "cache" = fsMask "cache" := by
  refine ⟨by decide, by decide, by decide, by decide⟩

/-! ### C9: scope and start_url are rewritten by the non-markup branch -/

/-- Modelled from the spec: the external favicon capability is configured
with a fixed `scope`/`start_url` of `/` and persists them into the
generated `manifest.json` (the repository delegates this serialization to
the external `favicons` package; the orchestrator configuration is
src/dist/index.js lines 223-224). -/
def manifestGenText : String :=
  "\x7b\n  \"name\": \"App\",\n  \"display\": \"standalone\",\n  \"scope\": \"/\",\n  \"start_url\": \"/\",\n  \"icons\": [\n    \x7b\n      \"src\": \"/pwa/icon-192.png\",\n      \"sizes\": \"192x192\",\n      \"type\": \"image/png\"\n    \x7d\n  ]\n\x7d"

/-- `manifestGenText` after the non-markup rewrite of every `"/` to
`"../`. -/
def manifestRewrittenText : String :=
  "\x7b\n  \"name\": \"App\",\n  \"display\": \"standalone\",\n  \"scope\": \"../\",\n  \"start_url\": \"../\",\n  \"icons\": [\n    \x7b\n      \"src\": \"../pwa/icon-192.png\",\n      \"sizes\": \"192x192\",\n      \"type\": \"image/png\"\n    \x7d\n  ]\n\x7d"

/-- External collaborators for a successful run generating
`manifestGenText`. -/
def extScope : Ext :=
  { favOutcome := Except.ok (FavResponse.mk [] [("manifest.json", manifestGenText)] ["<link>"])
    parseManifest := fun _ => none
    printManifest := fun _ => ""
    render := fun s => s
    manifestWriteFails := false
    commitNowMs := 7 }

/-- Inputs for the C9 run. -/
def fsScope : FS :=
  fsOfPairs [("app.json", Entry.file 100 "cfg"), ("tpl.html", Entry.file 100 "tpl")]

set_option maxRecDepth 100000 in
/-- C9: the non-markup branch of `replaceRootPaths` rewrites every quoted
root path, so the `"/"` values the orchestrator configures for the
manifest fields `scope` and `start_url` are rewritten too: after the pipeline
completes, the persisted `manifest.json` carries `"../"` for `scope` and
`start_url` where the generated text carried `"/"`. -/
theorem scope_start_url_rewritten :
    (generateApp optsForce cfgPlain extScope 1000 fsScope).outcome = Outcome.completed ∧
    fileContent (generateApp optsForce cfgPlain extScope 1000 fsScope).fs
        "public/pwa/manifest.json" = some manifestRewrittenText ∧
    containsStr manifestGenText "\"scope\": \"/\"" = true ∧
    containsStr manifestGenText "\"start_url\": \"/\"" = true ∧
    containsStr manifestRewrittenText "\"scope\": \"../\"" = true ∧
    containsStr manifestRewrittenText "\"start_url\": \"../\"" = true ∧
    containsStr manifestRewrittenText "\"scope\": \"/\"" = false ∧
    containsStr manifestRewrittenText "\"start_url\": \"/\"" = false := by
  refine ⟨by decide, by decide, by decide, by decide, by decide, by decide, by decide, by decide⟩

/-! ### C8: the cache commit happens exactly on successful completion -/

/-- `g` keeps every path that exists in `f` (the pipeline never deletes). -/
def FS.keeps (f g : FS) : Prop := ∀ q, (f q).isSome → (g q).isSome

theorem FS.keeps_refl (f : FS) : f.keeps f := fun _ h => h

theorem FS.keeps_trans {f g h : FS} (h1 : f.keeps g) (h2 : g.keeps h) : f.keeps h :=
  fun q hq => h2 q (h1 q hq)

theorem FS.keeps_write (f : FS) (k : String) (e : Entry) : f.keeps (f.write k e) := by
  intro q hq
  unfold FS.write
  by_cases h : q = k <;> simp [h, hq]

theorem FS.keeps_ensureDir (f : FS) (p : String) (clockMs : Nat) :
    f.keeps (f.ensureDir p clockMs) := by
  intro q hq
  unfold FS.ensureDir
  cases hf : f p with
  | none => exact FS.keeps_write f p _ q hq
  | some e => exact hq

theorem FS.keeps_trySetMtimeSecs (f : FS) (p : String) (secs : Nat) :
    f.keeps (f.trySetMtimeSecs p secs) := by
  intro q hq
  rw [FS.trySetMtimeSecs_isSome]
  exact hq

theorem FS.keeps_foldl_write (l : List (String × String)) (f : FS) (clockMs : Nat) :
    f.keeps (l.foldl (fun acc pc => acc.write pc.1 (Entry.file clockMs pc.2)) f) := by
  induction l generalizing f with
  | nil => exact FS.keeps_refl f
  | cons a rest ih =>
    exact FS.keeps_trans (FS.keeps_write f a.1 (Entry.file clockMs a.2))
      (ih (f.write a.1 (Entry.file clockMs a.2)))

theorem FS.keeps_rrStep (folder : String) (clockMs : Nat) (f : FS) (file : String) :
    f.keeps (rrStep folder clockMs f file) := by
  unfold rrStep
  cases hf : f (pathJoin folder file) with
  | none => exact FS.keeps_refl f
  | some e =>
    cases e with
    | dir t => exact FS.keeps_refl f
    | file t c => exact FS.keeps_write f _ _

theorem FS.keeps_replaceRootPaths (folder : String) (files : List String) (clockMs : Nat)
    (f : FS) : f.keeps (replaceRootPaths folder files clockMs f) := by
  induction files generalizing f with
  | nil => exact FS.keeps_refl f
  | cons a rest ih =>
    exact FS.keeps_trans (FS.keeps_rrStep folder clockMs f a) (ih (rrStep folder clockMs f a))

theorem foldl_write_other (l : List (String × String)) (f : FS) (clockMs : Nat) {q : String}
    (h : ∀ pc ∈ l, q ≠ pc.1) :
    (l.foldl (fun acc pc => acc.write pc.1 (Entry.file clockMs pc.2)) f) q = f q := by
  induction l generalizing f with
  | nil => rfl
  | cons a rest ih =>
    rw [List.foldl_cons, ih _ (fun pc hpc => h pc (List.mem_cons_of_mem a hpc))]
    exact f.write_other _ (h a (List.mem_cons_self a rest))

theorem foldl_trySet_other (l : List String) (now : Nat) (f : FS) {q : String} (h : q ∉ l) :
    (l.foldl (fun acc s => acc.trySetMtimeSecs s now) f) q = f q := by
  induction l generalizing f with
  | nil => rfl
  | cons a rest ih =>
    rw [List.foldl_cons, ih _ (fun hq => h (List.mem_cons_of_mem a hq))]
    exact f.trySetMtimeSecs_other now (fun hq => h (hq ▸ List.mem_cons_self a rest))

theorem foldl_trySet_mem (l : List String) (now : Nat) (f : FS) {s : String} (hs : s ∈ l)
    (hex : (f s).isSome) :
    statMtime (l.foldl (fun acc s => acc.trySetMtimeSecs s now) f) s = some (now * 1000) := by
  induction l generalizing f with
  | nil => cases hs
  | cons a rest ih =>
    rw [List.foldl_cons]
    by_cases hmem : s ∈ rest
    · exact ih _ hmem (by rw [FS.trySetMtimeSecs_isSome]; exact hex)
    · have hsa : s = a := by
        rcases List.mem_cons.mp hs with h | h
        · exact h
        · exact absurd h hmem
      subst hsa
      rw [statMtime_eq_of_eq (foldl_trySet_other rest now _ hmem)]
      exact statMtime_trySetMtimeSecs_self f s now hex

theorem fsAfterDoc_keeps (opts : Options) (ext : Ext) (nowMs : Nat) (fs : FS) :
    fs.keeps (fsAfterDoc opts ext nowMs fs) :=
  FS.keeps_trans (FS.keeps_replaceRootPaths _ _ _ _) (FS.keeps_write _ _ _)

theorem commitFS_cache_mtime (sources : List String) (cacheFile : String) (nowMs : Nat)
    (ext : Ext) (fsD : FS) :
    statMtime (commitFS sources cacheFile nowMs ext fsD) cacheFile
      = some (nowMs / 1000 * 1000) := by
  unfold commitFS
  apply statMtime_trySetMtimeSecs_self
  simp [FS.write_self]

theorem commitFS_source_mtime (sources : List String) (cacheFile : String) (nowMs : Nat)
    (ext : Ext) (fsD : FS) {s : String} (hs : s ∈ sources) (hex : (fsD s).isSome) :
    statMtime (commitFS sources cacheFile nowMs ext fsD) s = some (nowMs / 1000 * 1000) := by
  by_cases hsc : s = cacheFile
  · subst hsc
    exact commitFS_cache_mtime sources s nowMs ext fsD
  · unfold commitFS
    rw [statMtime_eq_of_eq (FS.trySetMtimeSecs_other _ _ hsc)]
    rw [statMtime_eq_of_eq (FS.write_other _ _ hsc)]
    exact foldl_trySet_mem sources (nowMs / 1000) fsD hs hex

theorem finishPipeline_spec (opts : Options) (ext : Ext) (nowMs : Nat) (sources : List String)
    (cacheFile : String) (fs : FS) (tr : List Eff) (warns errs : List String) :
    (finishPipeline opts ext nowMs sources cacheFile fs tr warns errs).outcome
        = Outcome.completed ∧
    Eff.cacheCommit cacheFile
        ∈ (finishPipeline opts ext nowMs sources cacheFile fs tr warns errs).trace ∧
    statMtime (finishPipeline opts ext nowMs sources cacheFile fs tr warns errs).fs cacheFile
        = some (nowMs / 1000 * 1000) ∧
    (∀ s ∈ sources, (fs s).isSome →
      statMtime (finishPipeline opts ext nowMs sources cacheFile fs tr warns errs).fs s
        = some (nowMs / 1000 * 1000)) := by
  refine ⟨rfl, by simp [finishPipeline], ?_, ?_⟩
  · exact commitFS_cache_mtime sources cacheFile nowMs ext (fsAfterDoc opts ext nowMs fs)
  · intro s hs hex
    exact commitFS_source_mtime sources cacheFile nowMs ext (fsAfterDoc opts ext nowMs fs) hs
      (fsAfterDoc_keeps opts ext nowMs fs s hex)

theorem manifestStep_thrown_fs (opts : Options) (ext : Ext) (nowMs : Nat)
    (micons : List MaskableIcon) (fs : FS) (e : String)
    (h : (manifestStep opts ext nowMs micons fs).thrown = some e) :
    (manifestStep opts ext nowMs micons fs).fs = fs := by
  unfold manifestStep at h ⊢
  rcases hm : mergeLoop opts.targetFolder fs (parsedManifest opts ext fs) micons with ⟨r, ws⟩
  rw [hm] at h
  cases r with
  | error e2 => rfl
  | ok m? =>
    cases m? with
    | none => rfl
    | some m =>
      by_cases hw : ext.manifestWriteFails = true
      · simp [hw]
      · simp [hw] at h

theorem manifestStep_keeps (opts : Options) (ext : Ext) (nowMs : Nat)
    (micons : List MaskableIcon) (fs : FS) :
    fs.keeps (manifestStep opts ext nowMs micons fs).fs := by
  unfold manifestStep
  rcases hm : mergeLoop opts.targetFolder fs (parsedManifest opts ext fs) micons with ⟨r, ws⟩
  cases r with
  | error e2 => exact FS.keeps_refl fs
  | ok m? =>
    cases m? with
    | none => exact FS.keeps_refl fs
    | some m =>
      dsimp only
      by_cases hw : ext.manifestWriteFails = true
      · rw [if_pos hw]
        exact FS.keeps_refl fs
      · rw [if_neg hw]
        exact FS.keeps_write fs _ _

/-- Paths the pipeline may write to before any abort point (the target
folder, the favicon folder, the robots file, and the favicon assets when
the external call succeeds). -/
def abortWritePaths (opts : Options) (ext : Ext) : List String :=
  [opts.targetFolder, pathJoin opts.targetFolder "pwa", pathJoin opts.targetFolder "robots.txt"]
    ++ (match ext.favOutcome with
        | Except.ok r => (favWritesOf (pathJoin opts.targetFolder "pwa") r).map Prod.fst
        | Except.error _ => [])

theorem keeps_ite_write (f : FS) (c : Prop) [Decidable c] (k : String) (e : Entry) :
    f.keeps (if c then f.write k e else f) := by
  by_cases h : c
  · rw [if_pos h]
    exact f.keeps_write k e
  · rw [if_neg h]
    exact f.keeps_refl

theorem ite_write_other (f : FS) (c : Prop) [Decidable c] (k : String) (e : Entry)
    {q : String} (h : q ≠ k) : (if c then f.write k e else f) q = f q := by
  by_cases hc : c
  · rw [if_pos hc]
    exact f.write_other e h
  · rw [if_neg hc]

theorem manifestStep_no_cacheCommit (opts : Options) (ext : Ext) (nowMs : Nat)
    (micons : List MaskableIcon) (fs : FS) (p : String) :
    Eff.cacheCommit p ∉ (manifestStep opts ext nowMs micons fs).trace := by
  unfold manifestStep
  rcases hm : mergeLoop opts.targetFolder fs (parsedManifest opts ext fs) micons with ⟨r, ws⟩
  cases r with
  | error e2 => simp
  | ok m? =>
    cases m? with
    | none => simp
    | some m =>
      dsimp only
      by_cases hw : ext.manifestWriteFails = true
      · rw [if_pos hw]
        simp
      · rw [if_neg hw]
        simp

theorem fsPreFav_other (opts : Options) (config : Config) (nowMs : Nat) (fs0 : FS) {q : String}
    (h1 : q ≠ opts.targetFolder) (h2 : q ≠ robotsPathOf opts) (h3 : q ≠ favFolderOf opts) :
    fsPreFav opts config nowMs fs0 q = fs0 q := by
  unfold fsPreFav
  rw [FS.ensureDir_other _ _ h3, ite_write_other _ _ _ _ h2]
  exact FS.ensureDir_other fs0 nowMs h1

theorem fsPreFav_keeps (opts : Options) (config : Config) (nowMs : Nat) (fs0 : FS) :
    (fs1Of opts nowMs fs0).keeps (fsPreFav opts config nowMs fs0) := by
  unfold fsPreFav
  exact FS.keeps_trans (keeps_ite_write _ _ _ _) (FS.keeps_ensureDir _ _ _)

theorem fsAfterFav_other (opts : Options) (nowMs : Nat) (resp : FavResponse) (fs3 : FS)
    {q : String} (h : ∀ pc ∈ favWritesOf (favFolderOf opts) resp, q ≠ pc.1) :
    fsAfterFav opts nowMs resp fs3 q = fs3 q := by
  unfold fsAfterFav
  exact foldl_write_other _ _ _ h

theorem fsAfterFav_keeps (opts : Options) (nowMs : Nat) (resp : FavResponse) (fs3 : FS) :
    fs3.keeps (fsAfterFav opts nowMs resp fs3) := by
  unfold fsAfterFav
  exact FS.keeps_foldl_write _ _ _

theorem trPreFav_no_cache (opts : Options) (config : Config) (p : String) :
    Eff.cacheCommit p ∉ trPreFav opts config := by
  by_cases h : truthy (ensNameOf (cfgAfterURL opts config)) = true <;> simp [trPreFav, h]

theorem trFav_no_cache (opts : Options) (resp : FavResponse) (p : String) :
    Eff.cacheCommit p ∉ trFav opts resp := by
  simp [trFav]

/-- C8: the modification times of the cache marker and the SourceSet files are
updated only on successful completion of the whole pipeline, and then every
one of them is pinned to the single build-start timestamp
`floor(Date.now() / 1000)` seconds (observed as `nowMs / 1000 * 1000`
milliseconds by a later stat); when the run ends any other way — process
exit on a missing input, the staleness-gate return, a favicon-generation
rejection or the manifest `TypeError` — no cache commit occurs and the
on-disk state of the cache marker is exactly as before the run (provided the
cache path is none of the paths the pipeline writes before its abort
points). -/
theorem cache_commit_only_on_completion (opts : Options) (config : Config) (ext : Ext)
    (nowMs : Nat) (fs0 : FS) :
    ((generateApp opts config ext nowMs fs0).outcome = Outcome.completed →
      Eff.cacheCommit (cacheFileOf opts (fs1Of opts nowMs fs0))
          ∈ (generateApp opts config ext nowMs fs0).trace ∧
      statMtime (generateApp opts config ext nowMs fs0).fs
          (cacheFileOf opts (fs1Of opts nowMs fs0)) = some (nowMs / 1000 * 1000) ∧
      (∀ s ∈ sourcesOf opts config, ((fs1Of opts nowMs fs0) s).isSome →
        statMtime (generateApp opts config ext nowMs fs0).fs s
          = some (nowMs / 1000 * 1000))) ∧
    ((generateApp opts config ext nowMs fs0).outcome ≠ Outcome.completed →
      (∀ p, Eff.cacheCommit p ∉ (generateApp opts config ext nowMs fs0).trace) ∧
      (cacheFileOf opts (fs1Of opts nowMs fs0) ∉ abortWritePaths opts ext →
        (generateApp opts config ext nowMs fs0).fs (cacheFileOf opts (fs1Of opts nowMs fs0))
          = fs0 (cacheFileOf opts (fs1Of opts nowMs fs0)))) := by
  by_cases h1 : ((fs1Of opts nowMs fs0) opts.configPath).isNone = true
  · have hA : generateApp opts config ext nowMs fs0
        = { fs := fs1Of opts nowMs fs0
            outcome := Outcome.exited 1
            trace := [Eff.ensureDir opts.targetFolder, Eff.exitP 1]
            warns := []
            errs := ["The " ++ opts.configPath
              ++ " file is required to prepare the web application"] } := by
      unfold generateApp
      simp [h1]
    rw [hA]
    refine ⟨fun hco => absurd hco (by simp), fun _ => ⟨fun p => by simp, fun hmem => ?_⟩⟩
    have hne1 : cacheFileOf opts (fs1Of opts nowMs fs0) ≠ opts.targetFolder := by
      intro he
      exact hmem (by rw [he]; simp [abortWritePaths])
    exact FS.ensureDir_other fs0 nowMs hne1
  · by_cases h2 : ((fs1Of opts nowMs fs0) opts.templateFilePath).isNone = true
    · have hB : generateApp opts config ext nowMs fs0
          = { fs := fs1Of opts nowMs fs0
              outcome := Outcome.exited 1
              trace := [Eff.ensureDir opts.targetFolder, Eff.exitP 1]
              warns := []
              errs := ["The " ++ opts.templateFilePath
                ++ " file is required to prepare the web application"] } := by
        unfold generateApp
        simp [h1, h2]
      rw [hB]
      refine ⟨fun hco => absurd hco (by simp), fun _ => ⟨fun p => by simp, fun hmem => ?_⟩⟩
      have hne1 : cacheFileOf opts (fs1Of opts nowMs fs0) ≠ opts.targetFolder := by
        intro he
        exact hmem (by rw [he]; simp [abortWritePaths])
      exact FS.ensureDir_other fs0 nowMs hne1
    · by_cases h3 : opts.force = false ∧
          maxTimeOf (fs1Of opts nowMs fs0) nowMs (sourcesOf opts config)
            ≤ lastTimeOf (fs1Of opts nowMs fs0) (cacheFileOf opts (fs1Of opts nowMs fs0))
      · have hC : generateApp opts config ext nowMs fs0
            = { fs := fs1Of opts nowMs fs0
                outcome := Outcome.skipped
                trace := [Eff.ensureDir opts.targetFolder]
                warns := []
                errs := [] } := by
          unfold generateApp
          simp [h1, h2, h3]
        rw [hC]
        refine ⟨fun hco => absurd hco (by simp), fun _ => ⟨fun p => by simp, fun hmem => ?_⟩⟩
        have hne1 : cacheFileOf opts (fs1Of opts nowMs fs0) ≠ opts.targetFolder := by
          intro he
          exact hmem (by rw [he]; simp [abortWritePaths])
        exact FS.ensureDir_other fs0 nowMs hne1
      · cases hfav : ext.favOutcome with
        | error e =>
          have hD : generateApp opts config ext nowMs fs0
              = { fs := fsPreFav opts config nowMs fs0
                  outcome := Outcome.threw e
                  trace := trPreFav opts config
                  warns := []
                  errs := [] } := by
            unfold generateApp
            simp [h1, h2, h3, hfav]
          rw [hD]
          refine ⟨fun hco => absurd hco (by simp), fun _ =>
            ⟨fun p => trPreFav_no_cache opts config p, fun hmem => ?_⟩⟩
          have hne1 : cacheFileOf opts (fs1Of opts nowMs fs0) ≠ opts.targetFolder := by
            intro he
            exact hmem (by rw [he]; simp [abortWritePaths])
          have hne2 : cacheFileOf opts (fs1Of opts nowMs fs0) ≠ robotsPathOf opts := by
            intro he
            exact hmem (by rw [he]; simp [abortWritePaths, robotsPathOf])
          have hne3 : cacheFileOf opts (fs1Of opts nowMs fs0) ≠ favFolderOf opts := by
            intro he
            exact hmem (by rw [he]; simp [abortWritePaths, favFolderOf])
          exact fsPreFav_other opts config nowMs fs0 hne1 hne2 hne3
        | ok resp =>
          cases hmick : (cfgAfterURL opts config).maskable_icons with
          | none =>
            have hE : generateApp opts config ext nowMs fs0
                = finishPipeline opts ext nowMs (sourcesOf opts config)
                    (cacheFileOf opts (fs1Of opts nowMs fs0))
                    (fsAfterFav opts nowMs resp (fsPreFav opts config nowMs fs0))
                    (trPreFav opts config ++ trFav opts resp) [] [] := by
              unfold generateApp
              simp [h1, h2, h3, hfav, hmick]
            rw [hE]
            obtain ⟨ho, hmm, hcm, hsm⟩ := finishPipeline_spec opts ext nowMs
              (sourcesOf opts config) (cacheFileOf opts (fs1Of opts nowMs fs0))
              (fsAfterFav opts nowMs resp (fsPreFav opts config nowMs fs0))
              (trPreFav opts config ++ trFav opts resp) [] []
            refine ⟨fun _ => ⟨hmm, hcm, fun s hs hex => hsm s hs ?_⟩, fun hnc => absurd ho hnc⟩
            exact fsAfterFav_keeps opts nowMs resp _ s (fsPreFav_keeps opts config nowMs fs0 s hex)
          | some micons =>
            cases hth : (manifestStep opts ext nowMs micons
                (fsAfterFav opts nowMs resp (fsPreFav opts config nowMs fs0))).thrown with
            | some e =>
              have hF : generateApp opts config ext nowMs fs0
                  = { fs := (manifestStep opts ext nowMs micons
                        (fsAfterFav opts nowMs resp (fsPreFav opts config nowMs fs0))).fs
                      outcome := Outcome.threw e
                      trace := trPreFav opts config ++ trFav opts resp
                        ++ (manifestStep opts ext nowMs micons
                            (fsAfterFav opts nowMs resp (fsPreFav opts config nowMs fs0))).trace
                      warns := (manifestStep opts ext nowMs micons
                          (fsAfterFav opts nowMs resp (fsPreFav opts config nowMs fs0))).warns
                      errs := (manifestStep opts ext nowMs micons
                          (fsAfterFav opts nowMs resp
                            (fsPreFav opts config nowMs fs0))).errs } := by
                unfold generateApp
                simp [h1, h2, h3, hfav, hmick, hth]
              rw [hF]
              refine ⟨fun hco => absurd hco (by simp), fun _ => ⟨fun p => ?_, fun hmem => ?_⟩⟩
              · simp only [List.mem_append]
                push_neg
                exact ⟨⟨trPreFav_no_cache opts config p, trFav_no_cache opts resp p⟩,
                  manifestStep_no_cacheCommit opts ext nowMs micons _ p⟩
              · have hne1 : cacheFileOf opts (fs1Of opts nowMs fs0) ≠ opts.targetFolder := by
                  intro he
                  exact hmem (by rw [he]; simp [abortWritePaths])
                have hne2 : cacheFileOf opts (fs1Of opts nowMs fs0) ≠ robotsPathOf opts := by
                  intro he
                  exact hmem (by rw [he]; simp [abortWritePaths, robotsPathOf])
                have hne3 : cacheFileOf opts (fs1Of opts nowMs fs0) ≠ favFolderOf opts := by
                  intro he
                  exact hmem (by rw [he]; simp [abortWritePaths, favFolderOf])
                have hne4 : ∀ pc ∈ favWritesOf (favFolderOf opts) resp,
                    cacheFileOf opts (fs1Of opts nowMs fs0) ≠ pc.1 := by
                  intro pc hpc he
                  apply hmem
                  rw [he]
                  unfold abortWritePaths
                  rw [hfav]
                  exact List.mem_append_right _ (List.mem_map_of_mem Prod.fst hpc)
                rw [manifestStep_thrown_fs _ _ _ _ _ _ hth]
                show fsAfterFav opts nowMs resp (fsPreFav opts config nowMs fs0)
                    (cacheFileOf opts (fs1Of opts nowMs fs0))
                  = fs0 (cacheFileOf opts (fs1Of opts nowMs fs0))
                rw [fsAfterFav_other opts nowMs resp _ hne4]
                exact fsPreFav_other opts config nowMs fs0 hne1 hne2 hne3
            | none =>
              have hG : generateApp opts config ext nowMs fs0
                  = finishPipeline opts ext nowMs (sourcesOf opts config)
                      (cacheFileOf opts (fs1Of opts nowMs fs0))
                      (manifestStep opts ext nowMs micons
                        (fsAfterFav opts nowMs resp (fsPreFav opts config nowMs fs0))).fs
                      (trPreFav opts config ++ trFav opts resp
                        ++ (manifestStep opts ext nowMs micons
                            (fsAfterFav opts nowMs resp (fsPreFav opts config nowMs fs0))).trace)
                      (manifestStep opts ext nowMs micons
                        (fsAfterFav opts nowMs resp (fsPreFav opts config nowMs fs0))).warns
                      (manifestStep opts ext nowMs micons
                        (fsAfterFav opts nowMs resp (fsPreFav opts config nowMs fs0))).errs := by
                unfold generateApp
                simp [h1, h2, h3, hfav, hmick, hth]
              rw [hG]
              obtain ⟨ho, hmm, hcm, hsm⟩ := finishPipeline_spec opts ext nowMs
                (sourcesOf opts config) (cacheFileOf opts (fs1Of opts nowMs fs0))
                (manifestStep opts ext nowMs micons
                  (fsAfterFav opts nowMs resp (fsPreFav opts config nowMs fs0))).fs
                (trPreFav opts config ++ trFav opts resp
                  ++ (manifestStep opts ext nowMs micons
                      (fsAfterFav opts nowMs resp (fsPreFav opts config nowMs fs0))).trace)
                (manifestStep opts ext nowMs micons
                  (fsAfterFav opts nowMs resp (fsPreFav opts config nowMs fs0))).warns
                (manifestStep opts ext nowMs micons
                  (fsAfterFav opts nowMs resp (fsPreFav opts config nowMs fs0))).errs
              refine ⟨fun _ => ⟨hmm, hcm, fun s hs hex => hsm s hs ?_⟩, fun hnc => absurd ho hnc⟩
              exact manifestStep_keeps opts ext nowMs micons _ s
                (fsAfterFav_keeps opts nowMs resp _ s (fsPreFav_keeps opts config nowMs fs0 s hex))

/-- External collaborators for a minimal successful run. -/
def ext8 : Ext :=
  { favOutcome := Except.ok (FavResponse.mk [] [] [])
    parseManifest := fun _ => none
    printManifest := fun _ => ""
    render := fun s => s
    manifestWriteFails := false
    commitNowMs := 9 }

/-- C8 witness: a completed concrete run pins the mtimes of the cache file
and of a source file to the build-start second. -/
theorem cache_commit_only_on_completion_witness :
    (generateApp optsForce cfgPlain ext8 1000 fsScope).outcome = Outcome.completed ∧
    statMtime (generateApp optsForce cfgPlain ext8 1000 fsScope).fs
        (cacheFileOf optsForce (fs1Of optsForce 1000 fsScope)) = some (1000 / 1000 * 1000) ∧
    statMtime (generateApp optsForce cfgPlain ext8 1000 fsScope).fs "app.json"
        = some (1000 / 1000 * 1000) :=
  ⟨by decide,
    ((cache_commit_only_on_completion optsForce cfgPlain ext8 1000 fsScope).1 (by decide)).2.1,
    ((cache_commit_only_on_completion optsForce cfgPlain ext8 1000 fsScope).1 (by decide)).2.2
      "app.json" (by decide) (by decide)⟩

end PrepareForWeb
